import Mathlib

/-!
Verification development for the value-investing analysis pipeline
(`ratio_calculator.py`, `prices.py`, `data_loader.py`).

Numeric cells that flow through the pandas pipeline are modelled by `FVal`:
a rational number, positive/negative infinity, or NaN, with arithmetic
following the IEEE-754 rules that numpy applies (division by zero yields a
signed infinity or NaN instead of raising; NaN is absorbing; `!=`
comparisons against NaN are true).
-/

/-- A pandas/numpy cell value: finite rational, ±infinity, or NaN. -/
inductive FVal where
  | fin (q : ℚ)
  | inf
  | negInf
  | nan
deriving DecidableEq, Repr

namespace FVal

/-- IEEE addition as numpy performs it on float64 cells. -/
def fadd : FVal → FVal → FVal
  | nan, _ => nan
  | _, nan => nan
  | fin a, fin b => fin (a + b)
  | fin _, inf => inf
  | inf, fin _ => inf
  | inf, inf => inf
  | fin _, negInf => negInf
  | negInf, fin _ => negInf
  | negInf, negInf => negInf
  | inf, negInf => nan
  | negInf, inf => nan

/-- IEEE subtraction as numpy performs it on float64 cells. -/
def fsub : FVal → FVal → FVal
  | nan, _ => nan
  | _, nan => nan
  | fin a, fin b => fin (a - b)
  | fin _, inf => negInf
  | inf, fin _ => inf
  | inf, inf => nan
  | fin _, negInf => inf
  | negInf, fin _ => negInf
  | negInf, negInf => nan
  | inf, negInf => inf
  | negInf, inf => negInf

/-- IEEE multiplication as numpy performs it on float64 cells. -/
def fmul : FVal → FVal → FVal
  | nan, _ => nan
  | _, nan => nan
  | fin a, fin b => fin (a * b)
  | fin a, inf => if 0 < a then inf else if a < 0 then negInf else nan
  | inf, fin a => if 0 < a then inf else if a < 0 then negInf else nan
  | fin a, negInf => if 0 < a then negInf else if a < 0 then inf else nan
  | negInf, fin a => if 0 < a then negInf else if a < 0 then inf else nan
  | inf, inf => inf
  | inf, negInf => negInf
  | negInf, inf => negInf
  | negInf, negInf => inf

/-- IEEE division as numpy performs it on float64 cells: division of a
nonzero finite value by zero yields a signed infinity with a runtime
warning, `0/0` yields NaN; no exception is raised. -/
def fdiv : FVal → FVal → FVal
  | nan, _ => nan
  | _, nan => nan
  | fin a, fin b =>
      if b ≠ 0 then fin (a / b)
      else if 0 < a then inf else if a < 0 then negInf else nan
  | fin _, inf => fin 0
  | fin _, negInf => fin 0
  | inf, fin b => if b < 0 then negInf else inf
  | negInf, fin b => if b < 0 then inf else negInf
  | inf, inf => nan
  | inf, negInf => nan
  | negInf, inf => nan
  | negInf, negInf => nan

/-- The Python/numpy `!=` comparison: NaN is unequal to everything
(including itself). -/
def pyNe : FVal → FVal → Bool
  | nan, _ => true
  | _, nan => true
  | fin a, fin b => decide (a ≠ b)
  | inf, inf => false
  | negInf, negInf => false
  | _, _ => true

/-- Whether a cell is missing (`NaN`), as `pandas.isna` sees it. -/
def isNaN : FVal → Bool
  | nan => true
  | _ => false

@[simp] theorem fadd_fin_fin (a b : ℚ) : fadd (fin a) (fin b) = fin (a + b) := rfl

@[simp] theorem fsub_fin_fin (a b : ℚ) : fsub (fin a) (fin b) = fin (a - b) := rfl

@[simp] theorem fmul_fin_fin (a b : ℚ) : fmul (fin a) (fin b) = fin (a * b) := rfl

@[simp] theorem fadd_nan_right (x : FVal) : fadd x nan = nan := by cases x <;> rfl

@[simp] theorem fadd_nan_left (x : FVal) : fadd nan x = nan := by cases x <;> rfl

@[simp] theorem fsub_nan_right (x : FVal) : fsub x nan = nan := by cases x <;> rfl

@[simp] theorem fsub_nan_left (x : FVal) : fsub nan x = nan := by cases x <;> rfl

@[simp] theorem fmul_nan_right (x : FVal) : fmul x nan = nan := by cases x <;> rfl

@[simp] theorem fmul_nan_left (x : FVal) : fmul nan x = nan := by cases x <;> rfl

@[simp] theorem fdiv_nan_right (x : FVal) : fdiv x nan = nan := by cases x <;> rfl

@[simp] theorem fdiv_nan_left (x : FVal) : fdiv nan x = nan := by cases x <;> rfl

@[simp] theorem pyNe_nan_left (x : FVal) : pyNe nan x = true := by cases x <;> rfl

@[simp] theorem pyNe_nan_right (x : FVal) : pyNe x nan = true := by cases x <;> rfl

@[simp] theorem pyNe_inf_inf : pyNe inf inf = false := rfl

theorem pyNe_fin_zero_eq_false_iff (x : FVal) : pyNe x (fin 0) = false ↔ x = fin 0 := by
  cases x <;> simp [pyNe]

@[simp] theorem isNaN_fin (a : ℚ) : isNaN (fin a) = false := rfl

@[simp] theorem isNaN_inf : isNaN inf = false := rfl

@[simp] theorem isNaN_negInf : isNaN negInf = false := rfl

@[simp] theorem isNaN_nan : isNaN nan = true := rfl

theorem fdiv_nan_of_ne_zero {b : FVal} (hb : b ≠ fin 0) : fdiv nan b = nan := by cases b <;> rfl

theorem fdiv_fin_nan_denom (a : ℚ) : fdiv (fin a) nan = nan := rfl

end FVal

/-!
Display formatting, modelling the Python f-string `f"{x:.2f}"` and the
display lambda `lambda x: f"{x:.2f}" if x != float('inf') else 'N/A'`
at `ratio_calculator.py` line 230.
-/

/-- Round half to even, as Python's fixed-point formatting does. -/
def roundHE (x : ℚ) : ℤ :=
  let f : ℤ := x.floor
  let r : ℚ := x - (f : ℚ)
  if r < 1 / 2 then f
  else if 1 / 2 < r then f + 1
  else if f % 2 = 0 then f else f + 1

/-- Fixed-point rendering of a finite value with two digits after the
decimal point, modelling `f"{x:.2f}"` on a finite float. -/
def ratToFixed2 (q : ℚ) : String :=
  let n : ℤ := roundHE (q * 100)
  let m : ℕ := n.natAbs
  (if n < 0 then "-" else "") ++ toString (m / 100) ++ "." ++
    String.mk [Nat.digitChar (m / 10 % 10), Nat.digitChar (m % 10)]

/-- The result of `f"{x:.2f}"` on any float64 value: `"nan"` for NaN,
`"inf"`/`"-inf"` for the infinities, fixed-point with two decimals
otherwise. -/
def toFixed2 : FVal → String
  | FVal.fin q => ratToFixed2 q
  | FVal.inf => "inf"
  | FVal.negInf => "-inf"
  | FVal.nan => "nan"

/-- The display formatter applied to the six ratio columns:
`lambda x: f"{x:.2f}" if x != float('inf') else 'N/A'`. -/
def fmtValue (x : FVal) : String :=
  if FVal.pyNe x FVal.inf then toFixed2 x else "N/A"

/-- Whether a rendered string contains a decimal point; any two-decimal
fixed-point rendering does. -/
def hasDot (s : String) : Bool :=
  s.data.contains '.'

@[simp] theorem fmtValue_inf : fmtValue FVal.inf = "N/A" := rfl

@[simp] theorem fmtValue_nan : fmtValue FVal.nan = "nan" := rfl

@[simp] theorem fmtValue_fin (q : ℚ) : fmtValue (FVal.fin q) = ratToFixed2 q := rfl

/-!
Data model of the pipeline (`ratio_calculator.py`).

A raw statement payload is the JSON object `{timestamp: {field: value}}`
produced by `data_loader.py` (`to_json(orient='columns')` of the yfinance
statement frame); `load_and_clean_financial_data` turns it into a
period-indexed table via `pd.DataFrame.from_dict(data, orient='index')`,
restricts it to the required columns (raising `KeyError` when a required
column is absent from the whole payload) and sorts by date. Only
`FileNotFoundError` is caught; a file that cannot be parsed raises
`json.JSONDecodeError`, which propagates.
-/

/-- Period keys: the millisecond timestamps of the JSON payload (the
calendar-date conversion is strictly monotone, so it is kept abstract). -/
abbrev Date := ℤ

/-- One period's field map in a raw JSON payload. -/
abbrev RawRow := List (String × FVal)

/-- Cell access on a raw row after column restriction: a field absent from
this period (but present elsewhere in the payload) is NaN. -/
def rawCell (r : RawRow) (c : String) : FVal :=
  (r.lookup c).getD FVal.nan

/-- The outcome of locating and parsing one statement file. -/
inductive Payload where
  | notFound
  | malformed
  | found (rows : List (Date × RawRow))
deriving DecidableEq, Repr

/-- Whether a column appears anywhere in the payload; `from_dict` builds
the column set as the union of the per-period field names. -/
def hasCol (rows : List (Date × RawRow)) (c : String) : Bool :=
  rows.any (fun p => (p.2.lookup c).isSome)

def colNetIncome : String := "Net Income"
def colEBIT : String := "EBIT"
def colEBITDA : String := "EBITDA"
def colTaxProvision : String := "Tax Provision"
def colPretaxIncome : String := "Pretax Income"
def colDilutedEPS : String := "Diluted EPS"
def colStockholdersEquity : String := "Stockholders Equity"
def colInvestedCapital : String := "Invested Capital"
def colTotalDebt : String := "Total Debt"
def colCash : String := "Cash And Cash Equivalents"
def colFreeCashFlow : String := "Free Cash Flow"

/-- `FINANCIALS_COLS` from the source. -/
def FINANCIALS_COLS : List String :=
  [colNetIncome, colEBIT, colEBITDA, colTaxProvision, colPretaxIncome, colDilutedEPS]

/-- `BALANCE_SHEET_COLS` from the source. -/
def BALANCE_SHEET_COLS : List String :=
  [colStockholdersEquity, colInvestedCapital, colTotalDebt, colCash]

/-- `CASHFLOW_COLS` from the source. -/
def CASHFLOW_COLS : List String := [colFreeCashFlow]

/-- One normalized income-statement period. -/
structure FinRow where
  netIncome : FVal
  ebit : FVal
  ebitda : FVal
  taxProvision : FVal
  pretaxIncome : FVal
  dilutedEPS : FVal
deriving DecidableEq, Repr

/-- One normalized balance-sheet period. -/
structure BalRow where
  stockholdersEquity : FVal
  investedCapital : FVal
  totalDebt : FVal
  cash : FVal
deriving DecidableEq, Repr

/-- One normalized cash-flow period. -/
structure CFRow where
  freeCashFlow : FVal
deriving DecidableEq, Repr

def mkFinRow (r : RawRow) : FinRow :=
  ⟨rawCell r colNetIncome, rawCell r colEBIT, rawCell r colEBITDA,
   rawCell r colTaxProvision, rawCell r colPretaxIncome, rawCell r colDilutedEPS⟩

def mkBalRow (r : RawRow) : BalRow :=
  ⟨rawCell r colStockholdersEquity, rawCell r colInvestedCapital,
   rawCell r colTotalDebt, rawCell r colCash⟩

def mkCFRow (r : RawRow) : CFRow :=
  ⟨rawCell r colFreeCashFlow⟩

/-- Insertion step of the ascending sort on the period index. -/
def insertByDate {α : Type} (x : Date × α) : List (Date × α) → List (Date × α)
  | [] => [x]
  | y :: ys => if x.1 ≤ y.1 then x :: y :: ys else y :: insertByDate x ys

/-- `sort_index(ascending=True)` on a period-indexed table. -/
def sortByDate {α : Type} : List (Date × α) → List (Date × α)
  | [] => []
  | x :: xs => insertByDate x (sortByDate xs)

/-- `load_and_clean_financial_data(financials_path, FINANCIALS_COLS)`.
`FileNotFoundError` is caught and yields an empty table; a malformed
payload raises (`json.JSONDecodeError` is not caught), and a payload
lacking a required column raises `KeyError` at `df[keep_columns]`. -/
def load_financials : Payload → Except Unit (List (Date × FinRow))
  | Payload.notFound => Except.ok []
  | Payload.malformed => Except.error ()
  | Payload.found rows =>
      if FINANCIALS_COLS.all (hasCol rows) then
        Except.ok (sortByDate (rows.map (fun p => (p.1, mkFinRow p.2))))
      else Except.error ()

/-- `load_and_clean_financial_data(balance_path, BALANCE_SHEET_COLS)`. -/
def load_balance : Payload → Except Unit (List (Date × BalRow))
  | Payload.notFound => Except.ok []
  | Payload.malformed => Except.error ()
  | Payload.found rows =>
      if BALANCE_SHEET_COLS.all (hasCol rows) then
        Except.ok (sortByDate (rows.map (fun p => (p.1, mkBalRow p.2))))
      else Except.error ()

/-- `load_and_clean_financial_data(cashflow_path, CASHFLOW_COLS)`. -/
def load_cashflow : Payload → Except Unit (List (Date × CFRow))
  | Payload.notFound => Except.ok []
  | Payload.malformed => Except.error ()
  | Payload.found rows =>
      if CASHFLOW_COLS.all (hasCol rows) then
        Except.ok (sortByDate (rows.map (fun p => (p.1, mkCFRow p.2))))
      else Except.error ()

/-- One row of the consolidated table: the columns of the three statements
joined on period date. -/
structure CombRow where
  netIncome : FVal
  ebit : FVal
  ebitda : FVal
  taxProvision : FVal
  pretaxIncome : FVal
  dilutedEPS : FVal
  stockholdersEquity : FVal
  investedCapital : FVal
  totalDebt : FVal
  cash : FVal
  freeCashFlow : FVal
deriving DecidableEq, Repr

def nanFinRow : FinRow := ⟨FVal.nan, FVal.nan, FVal.nan, FVal.nan, FVal.nan, FVal.nan⟩

def nanBalRow : BalRow := ⟨FVal.nan, FVal.nan, FVal.nan, FVal.nan⟩

def nanCFRow : CFRow := ⟨FVal.nan⟩

/-- The union of the three period indexes, as `pd.concat(axis=1)` (outer
join) aligns them. -/
def allDates (ft : List (Date × FinRow)) (bt : List (Date × BalRow))
    (ct : List (Date × CFRow)) : List Date :=
  ((ft.map Prod.fst) ++ (bt.map Prod.fst) ++ (ct.map Prod.fst)).dedup

/-- The outer-joined row at period `d`: columns of a statement with no
record at `d` are NaN. -/
def combRowAt (ft : List (Date × FinRow)) (bt : List (Date × BalRow))
    (ct : List (Date × CFRow)) (d : Date) : CombRow :=
  let f := (ft.lookup d).getD nanFinRow
  let b := (bt.lookup d).getD nanBalRow
  let c := (ct.lookup d).getD nanCFRow
  ⟨f.netIncome, f.ebit, f.ebitda, f.taxProvision, f.pretaxIncome, f.dilutedEPS,
   b.stockholdersEquity, b.investedCapital, b.totalDebt, b.cash, c.freeCashFlow⟩

/-- The `dropna(subset=[...])` predicate: all five critical fields present. -/
def criticalOK (r : CombRow) : Bool :=
  !(FVal.isNaN r.netIncome) && !(FVal.isNaN r.stockholdersEquity) &&
  !(FVal.isNaN r.ebit) && !(FVal.isNaN r.ebitda) && !(FVal.isNaN r.freeCashFlow)

/-- `pd.concat([df_financials, df_balance, df_cashflow], axis=1).dropna(
subset=['Net Income', 'Stockholders Equity', 'EBIT', 'EBITDA',
'Free Cash Flow'])` from `analyze_ticker`. -/
def consolidate (ft : List (Date × FinRow)) (bt : List (Date × BalRow))
    (ct : List (Date × CFRow)) : List (Date × CombRow) :=
  ((allDates ft bt ct).map (fun d => (d, combRowAt ft bt ct d))).filter
    (fun p => criticalOK p.2)

/-!
The ratio engine: `calculate_ratios(df_combined, info_data, ticker)`.
-/

open FVal in
/-- `df_combined['ROE (%)'] = (df_combined['Net Income'] /
df_combined['Stockholders Equity']) * 100`. -/
def roeOf (r : CombRow) : FVal :=
  fmul (fdiv r.netIncome r.stockholdersEquity) (fin 100)

open FVal in
/-- The per-row effective tax rate: `row['Tax Provision'] /
row['Pretax Income'] if row['Pretax Income'] != 0 else 0.21`. -/
def taxRateOf (r : CombRow) : FVal :=
  if pyNe r.pretaxIncome (fin 0) then fdiv r.taxProvision r.pretaxIncome
  else fin (21 / 100)

open FVal in
/-- `df_combined['ROIC (%)'] = (df_combined['EBIT'] * (1 - tax_rate) /
df_combined['Invested Capital']) * 100`. -/
def roicOf (r : CombRow) : FVal :=
  fmul (fdiv (fmul r.ebit (fsub (fin 1) (taxRateOf r))) r.investedCapital) (fin 100)

/-- A row of the historical table: the consolidated columns plus the two
appended ratio columns. -/
structure HistRow where
  base : CombRow
  roe : FVal
  roic : FVal
deriving DecidableEq, Repr

/-- The historical pass: append the `ROE (%)` and `ROIC (%)` columns to
the consolidated table. -/
def addHistorical (t : List (Date × CombRow)) : List (Date × HistRow) :=
  t.map (fun p => (p.1, ⟨p.2, roeOf p.2, roicOf p.2⟩))

/-- The metadata bag read from `{ticker}_info.json`; `info_data.get(...)`
yields `none` when a key is absent. -/
structure Info where
  marketCap : Option ℚ
  currentPrice : Option ℚ
  industryKey : Option String
  sector : Option String
deriving DecidableEq, Repr

/-- The current-period result Series built by `calculate_ratios`. -/
structure CurrentRecord where
  lastDate : Date
  marketCap : ℚ
  ev : FVal
  industryKey : String
  roe : FVal
  roic : FVal
  per : FVal
  evEbit : FVal
  evEbitda : FVal
  evFcf : FVal
deriving DecidableEq, Repr

/-- The first component returned by `calculate_ratios`: either the error
dict `{'Error': 'Market Cap o Precio actual no disponible.'}` or the
result Series. -/
inductive CurrentOut where
  | errorState
  | record (r : CurrentRecord)
deriving DecidableEq, Repr

/-- `info_data.get('industryKey', 'default_industry')` at line 72. -/
def keyOfInfo (i : Info) : String :=
  i.industryKey.getD ("default_industry")

open FVal in
/-- `calculate_ratios`: returns `None, None, None` on an empty table;
otherwise appends the two historical columns, resolves the industry key,
and either degrades to the error dict (market cap or price absent) or
builds the current-period Series from the last row, guarding each
market-ratio divisor against exact zero with the `float('inf')`
sentinel. -/
def calculate_ratios (combined : List (Date × CombRow)) (i : Info) :
    Option (CurrentOut × List (Date × HistRow) × String) :=
  if combined.isEmpty then none
  else
    let hist := addHistorical combined
    let key := keyOfInfo i
    match i.marketCap, i.currentPrice with
    | some mc, some price =>
      match hist.getLast? with
      | none => none
      | some (d, lastRow) =>
        let ev := fsub (fadd (fin mc) lastRow.base.totalDebt) lastRow.base.cash
        some (CurrentOut.record
          ⟨d, mc, ev, key, lastRow.roe, lastRow.roic,
           if pyNe lastRow.base.dilutedEPS (fin 0) then fdiv (fin price) lastRow.base.dilutedEPS
           else inf,
           if pyNe lastRow.base.ebit (fin 0) then fdiv ev lastRow.base.ebit else inf,
           if pyNe lastRow.base.ebitda (fin 0) then fdiv ev lastRow.base.ebitda else inf,
           if pyNe lastRow.base.freeCashFlow (fin 0) then fdiv ev lastRow.base.freeCashFlow
           else inf⟩,
          hist, key)
    | _, _ => some (CurrentOut.errorState, hist, key)

/-- The outcome of locating and parsing `{ticker}_info.json` in
`analyze_ticker` (only `FileNotFoundError` is caught). -/
inductive InfoPayload where
  | notFound
  | found (i : Info)
deriving DecidableEq, Repr

/-- `get_industry_key(ticker)` from `prices.py`:
`info_data.get('industryKey') or info_data.get('sector') or
'default_industry'`, with `'default_industry'` on a missing file.
Python `or` skips `None` and the empty string. -/
def get_industry_key (p : InfoPayload) : String :=
  match p with
  | InfoPayload.notFound => "default_industry"
  | InfoPayload.found i =>
    match i.industryKey with
    | some k =>
      if k = "" then
        match i.sector with
        | some s => if s = "" then "default_industry" else s
        | none => "default_industry"
      else k
    | none =>
      match i.sector with
      | some s => if s = "" then "default_industry" else s
      | none => "default_industry"

/-- The four per-ticker input artifacts. -/
structure TickerInput where
  financials : Payload
  balance : Payload
  cashflow : Payload
  info : InfoPayload
deriving DecidableEq, Repr

/-- The triple returned by `analyze_ticker`: current-period Series (or
`None`), historical table (or `None`), industry key (or `None`). -/
structure AnalyzeResult where
  current : Option CurrentRecord
  hist : Option (List (Date × HistRow))
  industry : Option String
deriving DecidableEq, Repr

/-- `analyze_ticker(ticker)`: load the three statements (uncaught
exceptions propagate), bail out with all-`None` when any is empty or the
info file is missing, consolidate, and run `calculate_ratios`; the error
dict from the engine becomes a `None` current result while the historical
table and industry key are still returned. -/
def analyze_ticker (inp : TickerInput) : Except Unit AnalyzeResult :=
  match load_financials inp.financials with
  | Except.error e => Except.error e
  | Except.ok ft =>
    match load_balance inp.balance with
    | Except.error e => Except.error e
    | Except.ok bt =>
      match load_cashflow inp.cashflow with
      | Except.error e => Except.error e
      | Except.ok ct =>
        if ft.isEmpty || bt.isEmpty || ct.isEmpty then
          Except.ok ⟨none, none, none⟩
        else
          match inp.info with
          | InfoPayload.notFound => Except.ok ⟨none, none, none⟩
          | InfoPayload.found i =>
            let combined := consolidate ft bt ct
            if combined.isEmpty then Except.ok ⟨none, none, i.industryKey⟩
            else
              match calculate_ratios combined i with
              | none => Except.ok ⟨none, none, none⟩
              | some (CurrentOut.errorState, h, k) => Except.ok ⟨none, some h, some k⟩
              | some (CurrentOut.record r, h, k) => Except.ok ⟨some r, some h, some k⟩

/-!
The module-level loop and the consolidation-and-grouping writer.
-/

/-- The accumulating collections of the module-level loop:
`all_ratios`, `historical_dataframes`, `ticker_to_industry`. -/
structure RunAcc where
  allRatios : List (String × CurrentRecord)
  histDfs : List (String × List (Date × HistRow))
  tickerToIndustry : List (String × String)
deriving DecidableEq, Repr

/-- One iteration of the main loop: append the current Series and record
the ticker-to-industry mapping only when the current result is present;
store the historical table whenever it is present. -/
def updateAcc (acc : RunAcc) (t : String) (res : AnalyzeResult) : RunAcc :=
  let acc1 :=
    match res.current, res.industry with
    | some r, some k =>
      ⟨acc.allRatios ++ [(t, r)], acc.histDfs, acc.tickerToIndustry ++ [(t, k)]⟩
    | some r, none => ⟨acc.allRatios ++ [(t, r)], acc.histDfs, acc.tickerToIndustry⟩
    | none, _ => acc
  match res.hist with
  | some h => ⟨acc1.allRatios, acc1.histDfs ++ [(t, h)], acc1.tickerToIndustry⟩
  | none => acc1

/-- The `for ticker in TICKERS_TO_ANALYZE` loop; an exception raised while
analyzing any ticker propagates and aborts the run. -/
def runLoop (acc : RunAcc) : List (String × TickerInput) → Except Unit RunAcc
  | [] => Except.ok acc
  | p :: rest =>
    match analyze_ticker p.2 with
    | Except.error e => Except.error e
    | Except.ok res => runLoop (updateAcc acc p.1 res) rest

/-- The persisted outputs: one current-ratio table per industry key
(section 4.1 of the script) and one historical table per ticker, each
written under an industry directory (section 5.1). -/
structure RunOutput where
  currentTables : List (String × List (String × CurrentRecord))
  histWrites : List (String × String × List (Date × HistRow))
deriving DecidableEq, Repr

/-- The writer: group `all_ratios` by the `IndustryKey` column of each
record; route each historical table by `ticker_to_industry.get(ticker,
'default_industry')`. -/
def buildOutput (acc : RunAcc) : RunOutput :=
  ⟨((acc.allRatios.map (fun p => p.2.industryKey)).dedup).map
      (fun ind => (ind, acc.allRatios.filter (fun p => p.2.industryKey = ind))),
   acc.histDfs.map
      (fun p => ((acc.tickerToIndustry.lookup p.1).getD ("default_industry"), p.1, p.2))⟩

/-- The whole module-level run over an entity list. -/
def runPipeline (inputs : List (String × TickerInput)) : Except Unit RunOutput :=
  match runLoop ⟨[], [], []⟩ inputs with
  | Except.error e => Except.error e
  | Except.ok acc => Except.ok (buildOutput acc)

/-!
Helper lemmas about the engine and the consolidation.
-/

theorem addHistorical_map_fst (t : List (Date × CombRow)) :
    (addHistorical t).map Prod.fst = t.map Prod.fst := by
  simp [addHistorical, List.map_map]

theorem addHistorical_base (t : List (Date × CombRow)) :
    (addHistorical t).map (fun p => (p.1, p.2.base)) = t := by
  simp only [addHistorical, List.map_map]
  exact List.map_id t

theorem addHistorical_length (t : List (Date × CombRow)) :
    (addHistorical t).length = t.length := by
  simp [addHistorical]

theorem mem_addHistorical {t : List (Date × CombRow)} {p : Date × HistRow}
    (hp : p ∈ addHistorical t) :
    (p.1, p.2.base) ∈ t ∧ p.2.roe = roeOf p.2.base ∧ p.2.roic = roicOf p.2.base := by
  simp only [addHistorical, List.mem_map] at hp
  obtain ⟨q, hq, rfl⟩ := hp
  exact ⟨by simpa using hq, rfl, rfl⟩

theorem isEmpty_false_of_ne_nil {α : Type} {l : List α} (h : l ≠ []) :
    l.isEmpty = false := by
  cases l with
  | nil => exact absurd rfl h
  | cons a as => rfl

theorem calc_parts {combined : List (Date × CombRow)} {i : Info} {co : CurrentOut}
    {h : List (Date × HistRow)} {k : String}
    (hcalc : calculate_ratios combined i = some (co, h, k)) :
    h = addHistorical combined ∧ k = keyOfInfo i ∧ combined ≠ [] := by
  have hne : combined ≠ [] := by
    intro hc
    subst hc
    simp [calculate_ratios] at hcalc
  have he : combined.isEmpty = false := isEmpty_false_of_ne_nil hne
  rcases hmc : i.marketCap with _ | mc <;> rcases hcp : i.currentPrice with _ | cp <;>
    simp only [calculate_ratios, he, Bool.false_eq_true, if_false, hmc, hcp,
      Option.some.injEq, Prod.mk.injEq] at hcalc
  · exact ⟨hcalc.2.1.symm, hcalc.2.2.symm, hne⟩
  · exact ⟨hcalc.2.1.symm, hcalc.2.2.symm, hne⟩
  · exact ⟨hcalc.2.1.symm, hcalc.2.2.symm, hne⟩
  · rcases hl : (addHistorical combined).getLast? with _ | dl <;>
      simp only [hl] at hcalc
    · exact Option.noConfusion hcalc
    · obtain ⟨d, lr⟩ := dl
      simp only [Option.some.injEq, Prod.mk.injEq] at hcalc
      exact ⟨hcalc.2.1.symm, hcalc.2.2.symm, hne⟩

theorem calc_market_missing {combined : List (Date × CombRow)} {i : Info}
    (hne : combined ≠ []) (hmiss : i.marketCap = none ∨ i.currentPrice = none) :
    calculate_ratios combined i =
      some (CurrentOut.errorState, addHistorical combined, keyOfInfo i) := by
  have he : combined.isEmpty = false := isEmpty_false_of_ne_nil hne
  rcases hmiss with hm | hm
  · rcases hcp : i.currentPrice with _ | cp <;>
      simp [calculate_ratios, he, hm, hcp]
  · rcases hmc : i.marketCap with _ | mc <;>
      simp [calculate_ratios, he, hm, hmc]

theorem calc_record_spec {combined : List (Date × CombRow)} {i : Info} {rec : CurrentRecord}
    {h : List (Date × HistRow)} {k : String}
    (hcalc : calculate_ratios combined i = some (CurrentOut.record rec, h, k)) :
    ∃ mc price d lr,
      i.marketCap = some mc ∧ i.currentPrice = some price ∧
      (addHistorical combined).getLast? = some (d, lr) ∧
      rec = ⟨d, mc, FVal.fsub (FVal.fadd (FVal.fin mc) lr.base.totalDebt) lr.base.cash,
             keyOfInfo i, lr.roe, lr.roic,
             if FVal.pyNe lr.base.dilutedEPS (FVal.fin 0) then
               FVal.fdiv (FVal.fin price) lr.base.dilutedEPS
             else FVal.inf,
             if FVal.pyNe lr.base.ebit (FVal.fin 0) then
               FVal.fdiv (FVal.fsub (FVal.fadd (FVal.fin mc) lr.base.totalDebt) lr.base.cash)
                 lr.base.ebit
             else FVal.inf,
             if FVal.pyNe lr.base.ebitda (FVal.fin 0) then
               FVal.fdiv (FVal.fsub (FVal.fadd (FVal.fin mc) lr.base.totalDebt) lr.base.cash)
                 lr.base.ebitda
             else FVal.inf,
             if FVal.pyNe lr.base.freeCashFlow (FVal.fin 0) then
               FVal.fdiv (FVal.fsub (FVal.fadd (FVal.fin mc) lr.base.totalDebt) lr.base.cash)
                 lr.base.freeCashFlow
             else FVal.inf⟩ := by
  have hne : combined ≠ [] := (calc_parts hcalc).2.2
  have he : combined.isEmpty = false := isEmpty_false_of_ne_nil hne
  rcases hmc : i.marketCap with _ | mc <;> rcases hcp : i.currentPrice with _ | cp <;>
    simp only [calculate_ratios, he, Bool.false_eq_true, if_false, hmc, hcp] at hcalc
  · simp at hcalc
  · simp at hcalc
  · simp at hcalc
  · rcases hl : (addHistorical combined).getLast? with _ | dl
    · simp only [hl] at hcalc
      simp at hcalc
    · obtain ⟨d, lr⟩ := dl
      simp only [hl] at hcalc
      simp only [Option.some.injEq, Prod.mk.injEq, CurrentOut.record.injEq] at hcalc
      obtain ⟨h1, h2, h3⟩ := hcalc
      exact ⟨mc, cp, d, lr, rfl, rfl, rfl, h1.symm⟩

theorem mem_keys_of_lookup_isSome {α : Type} {l : List (Date × α)} {d : Date}
    (h : (l.lookup d).isSome = true) : d ∈ l.map Prod.fst := by
  induction l with
  | nil => simp [List.lookup] at h
  | cons p ps ih =>
    obtain ⟨k, b⟩ := p
    simp only [List.lookup] at h
    cases hd : d == k
    · rw [hd] at h
      simp only [List.map_cons, List.mem_cons]
      exact Or.inr (ih h)
    · simp only [List.map_cons, List.mem_cons]
      exact Or.inl (eq_of_beq hd)

theorem criticalOK_lookups {ft : List (Date × FinRow)} {bt : List (Date × BalRow)}
    {ct : List (Date × CFRow)} {d : Date}
    (h : criticalOK (combRowAt ft bt ct d) = true) :
    (ft.lookup d).isSome = true ∧ (bt.lookup d).isSome = true ∧
    (ct.lookup d).isSome = true := by
  refine ⟨?_, ?_, ?_⟩
  · cases hf : ft.lookup d with
    | none => simp [combRowAt, criticalOK, hf, nanFinRow] at h
    | some r => rfl
  · cases hb : bt.lookup d with
    | none => simp [combRowAt, criticalOK, hb, nanBalRow] at h
    | some r => rfl
  · cases hc : ct.lookup d with
    | none => simp [combRowAt, criticalOK, hc, nanCFRow] at h
    | some r => rfl

theorem consolidate_mem_iff (ft : List (Date × FinRow)) (bt : List (Date × BalRow))
    (ct : List (Date × CFRow)) (d : Date) (r : CombRow) :
    (d, r) ∈ consolidate ft bt ct ↔
      d ∈ allDates ft bt ct ∧ r = combRowAt ft bt ct d ∧ criticalOK r = true := by
  constructor
  · intro hm
    obtain ⟨hmap, hcrit⟩ := List.mem_filter.mp hm
    simp only [List.mem_map] at hmap
    obtain ⟨d2, hd2, heq⟩ := hmap
    cases heq
    exact ⟨hd2, rfl, hcrit⟩
  · rintro ⟨hd, rfl, hcrit⟩
    refine List.mem_filter.mpr ⟨?_, hcrit⟩
    exact List.mem_map.mpr ⟨d, hd, rfl⟩

theorem consolidate_keys_nodup (ft : List (Date × FinRow)) (bt : List (Date × BalRow))
    (ct : List (Date × CFRow)) :
    ((consolidate ft bt ct).map Prod.fst).Nodup := by
  have hsub : List.Sublist (consolidate ft bt ct)
      ((allDates ft bt ct).map (fun d => (d, combRowAt ft bt ct d))) :=
    List.filter_sublist _
  have : ((allDates ft bt ct).map (fun d => (d, combRowAt ft bt ct d))).map Prod.fst
      = allDates ft bt ct := by
    simp only [List.map_map]
    exact List.map_id _
  have hnd : (((allDates ft bt ct).map
      (fun d => (d, combRowAt ft bt ct d))).map Prod.fst).Nodup := by
    rw [this]
    exact List.nodup_dedup _
  exact hnd.sublist (hsub.map Prod.fst)

theorem consolidate_length_le (ft : List (Date × FinRow)) (bt : List (Date × BalRow))
    (ct : List (Date × CFRow)) :
    (consolidate ft bt ct).length ≤ min (min ft.length bt.length) ct.length := by
  have hnd := consolidate_keys_nodup ft bt ct
  have key : ∀ d ∈ (consolidate ft bt ct).map Prod.fst,
      (ft.lookup d).isSome = true ∧ (bt.lookup d).isSome = true ∧
      (ct.lookup d).isSome = true := by
    intro d hd
    simp only [List.mem_map] at hd
    obtain ⟨p, hp, rfl⟩ := hd
    obtain ⟨q, r⟩ := p
    have := (consolidate_mem_iff ft bt ct q r).mp hp
    obtain ⟨_, hr, hcrit⟩ := this
    exact criticalOK_lookups (hr ▸ hcrit)
  have lef : (consolidate ft bt ct).length ≤ ft.length := by
    have hsub : (consolidate ft bt ct).map Prod.fst ⊆ ft.map Prod.fst := by
      intro d hd
      exact mem_keys_of_lookup_isSome (key d hd).1
    have := (List.Nodup.subperm hnd hsub).length_le
    simpa using this
  have leb : (consolidate ft bt ct).length ≤ bt.length := by
    have hsub : (consolidate ft bt ct).map Prod.fst ⊆ bt.map Prod.fst := by
      intro d hd
      exact mem_keys_of_lookup_isSome (key d hd).2.1
    have := (List.Nodup.subperm hnd hsub).length_le
    simpa using this
  have lec : (consolidate ft bt ct).length ≤ ct.length := by
    have hsub : (consolidate ft bt ct).map Prod.fst ⊆ ct.map Prod.fst := by
      intro d hd
      exact mem_keys_of_lookup_isSome (key d hd).2.2
    have := (List.Nodup.subperm hnd hsub).length_le
    simpa using this
  exact le_min (le_min lef leb) lec

theorem pyNe_fin_zero_eq_true_iff (x : FVal) :
    FVal.pyNe x (FVal.fin 0) = true ↔ x ≠ FVal.fin 0 := by
  cases hb : FVal.pyNe x (FVal.fin 0)
  · simp only [Bool.false_eq_true, false_iff, ne_eq, not_not]
    exact (FVal.pyNe_fin_zero_eq_false_iff x).mp hb
  · simp only [true_iff, ne_eq]
    intro hx
    rw [hx] at hb
    simp [FVal.pyNe] at hb

theorem calc_some_of_ne_nil {combined : List (Date × CombRow)}
    (hne : combined ≠ []) (i : Info) :
    ∃ co, calculate_ratios combined i =
      some (co, addHistorical combined, keyOfInfo i) := by
  have he : combined.isEmpty = false := isEmpty_false_of_ne_nil hne
  rcases hmc : i.marketCap with _ | mc
  · exact ⟨_, calc_market_missing hne (Or.inl hmc)⟩
  rcases hcp : i.currentPrice with _ | cp
  · exact ⟨_, calc_market_missing hne (Or.inr hcp)⟩
  have hh : addHistorical combined ≠ [] := by
    intro h0
    apply hne
    have hl := addHistorical_length combined
    rw [h0] at hl
    exact List.eq_nil_of_length_eq_zero hl.symm
  rcases hl : (addHistorical combined).getLast? with _ | dl
  · exact absurd (List.getLast?_isSome.mpr hh) (by simp [hl])
  · obtain ⟨d, lr⟩ := dl
    refine ⟨CurrentOut.record
      ⟨d, mc, FVal.fsub (FVal.fadd (FVal.fin mc) lr.base.totalDebt) lr.base.cash,
       keyOfInfo i, lr.roe, lr.roic,
       if FVal.pyNe lr.base.dilutedEPS (FVal.fin 0) then
         FVal.fdiv (FVal.fin cp) lr.base.dilutedEPS
       else FVal.inf,
       if FVal.pyNe lr.base.ebit (FVal.fin 0) then
         FVal.fdiv (FVal.fsub (FVal.fadd (FVal.fin mc) lr.base.totalDebt) lr.base.cash)
           lr.base.ebit
       else FVal.inf,
       if FVal.pyNe lr.base.ebitda (FVal.fin 0) then
         FVal.fdiv (FVal.fsub (FVal.fadd (FVal.fin mc) lr.base.totalDebt) lr.base.cash)
           lr.base.ebitda
       else FVal.inf,
       if FVal.pyNe lr.base.freeCashFlow (FVal.fin 0) then
         FVal.fdiv (FVal.fsub (FVal.fadd (FVal.fin mc) lr.base.totalDebt) lr.base.cash)
           lr.base.freeCashFlow
       else FVal.inf⟩, ?_⟩
    simp only [calculate_ratios, he, Bool.false_eq_true, if_false, hmc, hcp, hl]

theorem analyze_market_missing {inp : TickerInput} {i : Info}
    {ft : List (Date × FinRow)} {bt : List (Date × BalRow)} {ct : List (Date × CFRow)}
    (hf : load_financials inp.financials = Except.ok ft)
    (hb : load_balance inp.balance = Except.ok bt)
    (hc : load_cashflow inp.cashflow = Except.ok ct)
    (hfe : ft ≠ []) (hbe : bt ≠ []) (hce : ct ≠ [])
    (hinfo : inp.info = InfoPayload.found i)
    (hmiss : i.marketCap = none ∨ i.currentPrice = none)
    (hcomb : consolidate ft bt ct ≠ []) :
    analyze_ticker inp = Except.ok
      ⟨none, some (addHistorical (consolidate ft bt ct)), some (keyOfInfo i)⟩ := by
  have hcalc := calc_market_missing hcomb hmiss
  simp only [analyze_ticker, hf, hb, hc, isEmpty_false_of_ne_nil hfe,
    isEmpty_false_of_ne_nil hbe, isEmpty_false_of_ne_nil hce, Bool.or_self,
    Bool.or_false, Bool.false_eq_true, if_false, hinfo,
    isEmpty_false_of_ne_nil hcomb, hcalc]

theorem runPipeline_error_head {t : String} {inp : TickerInput}
    (h : analyze_ticker inp = Except.error ()) (rest : List (String × TickerInput)) :
    runPipeline ((t, inp) :: rest) = Except.error () := by
  simp [runPipeline, runLoop, h]

theorem analyze_malformed_fin {inp : TickerInput}
    (h : inp.financials = Payload.malformed) :
    analyze_ticker inp = Except.error () := by
  simp [analyze_ticker, h, load_financials]

theorem hasDot_ratToFixed2 (q : ℚ) : hasDot (ratToFixed2 q) = true := by
  have hmid : List.any (String.data (".")) (fun c => c == '.') = true := by decide
  simp only [hasDot, ratToFixed2, String.data_append, List.contains_eq_any_beq,
    List.any_append]
  simp [hmid]

/-!
Concrete example inputs used to exercise the theorems.
-/

def exRow1 : CombRow :=
  ⟨FVal.fin 100, FVal.fin 10, FVal.fin 12, FVal.fin 30, FVal.fin 0, FVal.fin 2,
   FVal.fin 500, FVal.fin 79, FVal.fin 5, FVal.fin 3, FVal.fin 7⟩

def exComb1 : List (Date × CombRow) := [(0, exRow1)]

def exInfo1 : Info := ⟨none, some 3, some ("software"), none⟩

def exRow8 : CombRow :=
  ⟨FVal.fin 0, FVal.fin 0, FVal.fin 1, FVal.fin 0, FVal.fin 1, FVal.fin 1,
   FVal.fin 1, FVal.fin 1, FVal.fin 200000000, FVal.fin 50000000, FVal.fin 1⟩

def exComb8 : List (Date × CombRow) := [(5, exRow8)]

def exInfo8 : Info := ⟨some 1000000000, some 3, none, none⟩

def exLr8 : HistRow := ⟨exRow8, roeOf exRow8, roicOf exRow8⟩

def exEv8 : FVal := FVal.fsub (FVal.fadd (FVal.fin 1000000000) exRow8.totalDebt) exRow8.cash

def exRec8 : CurrentRecord :=
  ⟨5, 1000000000, exEv8, "default_industry", roeOf exRow8, roicOf exRow8,
   if FVal.pyNe exRow8.dilutedEPS (FVal.fin 0) then
     FVal.fdiv (FVal.fin 3) exRow8.dilutedEPS
   else FVal.inf,
   if FVal.pyNe exRow8.ebit (FVal.fin 0) then FVal.fdiv exEv8 exRow8.ebit else FVal.inf,
   if FVal.pyNe exRow8.ebitda (FVal.fin 0) then FVal.fdiv exEv8 exRow8.ebitda else FVal.inf,
   if FVal.pyNe exRow8.freeCashFlow (FVal.fin 0) then
     FVal.fdiv exEv8 exRow8.freeCashFlow
   else FVal.inf⟩

/-- C1: for every period of the consolidated table handed to the engine,
the historical pass computes ROE = net income / stockholders' equity × 100
and ROIC = EBIT × (1 − effective tax rate) / invested capital × 100, the
effective tax rate being tax provision / pretax income except that a
pretax income of exactly zero yields the fixed rate 0.21; the arithmetic
is total (numpy emits no division error) and no period is discarded. -/
theorem c1_historical_pass {combined : List (Date × CombRow)} {i : Info}
    {co : CurrentOut} {h : List (Date × HistRow)} {k : String}
    (hcalc : calculate_ratios combined i = some (co, h, k)) :
    h.map Prod.fst = combined.map Prod.fst ∧
    ∀ p ∈ h,
      p.2.roe = FVal.fmul (FVal.fdiv p.2.base.netIncome p.2.base.stockholdersEquity)
        (FVal.fin 100) ∧
      p.2.roic = FVal.fmul (FVal.fdiv (FVal.fmul p.2.base.ebit (FVal.fsub (FVal.fin 1)
          (if p.2.base.pretaxIncome = FVal.fin 0 then FVal.fin (21 / 100)
           else FVal.fdiv p.2.base.taxProvision p.2.base.pretaxIncome)))
        p.2.base.investedCapital) (FVal.fin 100) := by
  obtain ⟨rfl, -, -⟩ := calc_parts hcalc
  refine ⟨addHistorical_map_fst combined, ?_⟩
  intro p hp
  obtain ⟨-, hroe, hroic⟩ := mem_addHistorical hp
  refine ⟨hroe, ?_⟩
  rw [hroic]
  unfold roicOf taxRateOf
  by_cases hz : p.2.base.pretaxIncome = FVal.fin 0
  · rw [hz]
    simp [FVal.pyNe]
  · have hpy : FVal.pyNe p.2.base.pretaxIncome (FVal.fin 0) = true :=
      (pyNe_fin_zero_eq_true_iff _).mpr hz
    rw [hpy]
    simp [hz]

/-- Witness for C1 at a concrete one-period table whose pretax income is
exactly zero (tax provision 30): the rate used is 0.21. -/
theorem c1_witness :
    (addHistorical exComb1).map Prod.fst = exComb1.map Prod.fst ∧
    ∀ p ∈ addHistorical exComb1,
      p.2.roe = FVal.fmul (FVal.fdiv p.2.base.netIncome p.2.base.stockholdersEquity)
        (FVal.fin 100) ∧
      p.2.roic = FVal.fmul (FVal.fdiv (FVal.fmul p.2.base.ebit (FVal.fsub (FVal.fin 1)
          (if p.2.base.pretaxIncome = FVal.fin 0 then FVal.fin (21 / 100)
           else FVal.fdiv p.2.base.taxProvision p.2.base.pretaxIncome)))
        p.2.base.investedCapital) (FVal.fin 100) := by
  have hcalc : calculate_ratios exComb1 exInfo1 =
      some (CurrentOut.errorState, addHistorical exComb1, keyOfInfo exInfo1) :=
    calc_market_missing (by decide) (Or.inl rfl)
  exact c1_historical_pass hcalc

/-- C7: for a non-empty consolidated table whose metadata lacks market cap
or current price, the engine returns a non-fatal partial result: the error
indicator, the full historical table (same periods, ROE and ROIC already
computed for every period), and the resolved classification key. -/
theorem c7_market_missing_partial {combined : List (Date × CombRow)} {i : Info}
    (hne : combined ≠ []) (hmiss : i.marketCap = none ∨ i.currentPrice = none) :
    calculate_ratios combined i =
      some (CurrentOut.errorState, addHistorical combined, keyOfInfo i) ∧
    (addHistorical combined).map Prod.fst = combined.map Prod.fst ∧
    (addHistorical combined).length = combined.length ∧
    ∀ p ∈ addHistorical combined,
      p.2.roe = FVal.fmul (FVal.fdiv p.2.base.netIncome p.2.base.stockholdersEquity)
        (FVal.fin 100) ∧
      p.2.roic = FVal.fmul (FVal.fdiv (FVal.fmul p.2.base.ebit (FVal.fsub (FVal.fin 1)
          (taxRateOf p.2.base))) p.2.base.investedCapital) (FVal.fin 100) := by
  refine ⟨calc_market_missing hne hmiss, addHistorical_map_fst combined,
    addHistorical_length combined, ?_⟩
  intro p hp
  obtain ⟨-, hroe, hroic⟩ := mem_addHistorical hp
  exact ⟨hroe, hroic⟩

/-- Witness for C7 at a concrete non-empty table and metadata lacking the
market cap. -/
theorem c7_witness :
    calculate_ratios exComb1 exInfo1 =
      some (CurrentOut.errorState, addHistorical exComb1, keyOfInfo exInfo1) ∧
    (addHistorical exComb1).map Prod.fst = exComb1.map Prod.fst ∧
    (addHistorical exComb1).length = exComb1.length ∧
    ∀ p ∈ addHistorical exComb1,
      p.2.roe = FVal.fmul (FVal.fdiv p.2.base.netIncome p.2.base.stockholdersEquity)
        (FVal.fin 100) ∧
      p.2.roic = FVal.fmul (FVal.fdiv (FVal.fmul p.2.base.ebit (FVal.fsub (FVal.fin 1)
          (taxRateOf p.2.base))) p.2.base.investedCapital) (FVal.fin 100) :=
  c7_market_missing_partial (by decide) (Or.inl rfl)

/-- C10: for a non-empty consolidated table, the historical table returned
by the engine is the input table extended with exactly the two ratio
columns: projecting the new columns away recovers the input (every
pre-existing column's values unchanged), and the period index keeps its
set and order. -/
theorem c10_frame_effect {combined : List (Date × CombRow)} (i : Info)
    (hne : combined ≠ []) :
    ∃ co, calculate_ratios combined i =
      some (co, addHistorical combined, keyOfInfo i) ∧
      (addHistorical combined).map (fun p => (p.1, p.2.base)) = combined ∧
      (addHistorical combined).map Prod.fst = combined.map Prod.fst ∧
      (addHistorical combined).length = combined.length := by
  obtain ⟨co, hc⟩ := calc_some_of_ne_nil hne i
  exact ⟨co, hc, addHistorical_base combined, addHistorical_map_fst combined,
    addHistorical_length combined⟩

/-- Witness for C10 at a concrete one-period table with full metadata. -/
theorem c10_witness :
    ∃ co, calculate_ratios exComb8 exInfo8 =
      some (co, addHistorical exComb8, keyOfInfo exInfo8) ∧
      (addHistorical exComb8).map (fun p => (p.1, p.2.base)) = exComb8 ∧
      (addHistorical exComb8).map Prod.fst = exComb8.map Prod.fst ∧
      (addHistorical exComb8).length = exComb8.length :=
  c10_frame_effect exInfo8 (by decide)

/-- C8: whenever the engine produces a current-period record, the computed
enterprise value satisfies EV = market cap + total debt − cash exactly,
for any rational total debt and cash (positive or negative). -/
theorem c8_enterprise_value {combined : List (Date × CombRow)} {i : Info}
    {rec : CurrentRecord} {h : List (Date × HistRow)} {k : String}
    {d : Date} {lr : HistRow} {mc td cash : ℚ}
    (hcalc : calculate_ratios combined i = some (CurrentOut.record rec, h, k))
    (hlast : (addHistorical combined).getLast? = some (d, lr))
    (hmc : i.marketCap = some mc)
    (htd : lr.base.totalDebt = FVal.fin td)
    (hcash : lr.base.cash = FVal.fin cash) :
    rec.ev = FVal.fin (mc + td - cash) := by
  obtain ⟨mc2, price, d2, lr2, hmc2, hcp2, hl2, hrec⟩ := calc_record_spec hcalc
  have hmceq : mc = mc2 := by
    rw [hmc] at hmc2
    exact Option.some.inj hmc2
  have hpair : (d, lr) = (d2, lr2) := Option.some.inj (hlast.symm.trans hl2)
  injection hpair with hd hlr
  subst hd
  subst hlr
  subst hmceq
  rw [hrec]
  simp only [htd, hcash, FVal.fadd_fin_fin, FVal.fsub_fin_fin]

/-- Witness for C8 at the spec's own example: market cap 1,000,000,000,
total debt 200,000,000, cash 50,000,000 gives EV = 1,150,000,000, and the
EV/EBIT ratio of that period (EBIT = 0) renders as N/A. -/
theorem c8_witness :
    calculate_ratios exComb8 exInfo8 =
      some (CurrentOut.record exRec8, addHistorical exComb8, "default_industry") ∧
    exRec8.ev = FVal.fin 1150000000 ∧ fmtValue exRec8.evEbit = "N/A" := by
  have he : exComb8.isEmpty = false := rfl
  have hlast : (addHistorical exComb8).getLast? = some (5, exLr8) := rfl
  have hcalc : calculate_ratios exComb8 exInfo8 =
      some (CurrentOut.record exRec8, addHistorical exComb8, "default_industry") := by
    simp only [calculate_ratios, he, Bool.false_eq_true, if_false, hlast]
    rfl
  have hev := c8_enterprise_value hcalc hlast rfl rfl rfl
  have harith : (1000000000 + 200000000 - 50000000 : ℚ) = 1150000000 := by norm_num
  refine ⟨hcalc, by rw [hev, harith], ?_⟩
  have hbit : exRec8.evEbit = FVal.inf := by
    simp [exRec8, exRow8, FVal.pyNe]
  rw [hbit]
  rfl

/-- C3: the consolidated table contains exactly the periods of the outer
join at which all five critical fields are non-missing; its row count
never exceeds the minimum of the three source tables' row counts; and it
is empty when no period has full coverage. -/
theorem c3_consolidation (ft : List (Date × FinRow)) (bt : List (Date × BalRow))
    (ct : List (Date × CFRow)) :
    (∀ d r, (d, r) ∈ consolidate ft bt ct ↔
       d ∈ allDates ft bt ct ∧ r = combRowAt ft bt ct d ∧ criticalOK r = true) ∧
    (consolidate ft bt ct).length ≤ min (min ft.length bt.length) ct.length ∧
    ((∀ d ∈ allDates ft bt ct, criticalOK (combRowAt ft bt ct d) = false) →
      consolidate ft bt ct = []) := by
  refine ⟨consolidate_mem_iff ft bt ct, consolidate_length_le ft bt ct, ?_⟩
  intro hall
  rw [consolidate, List.filter_eq_nil_iff]
  intro p hp
  simp only [List.mem_map] at hp
  obtain ⟨d, hd, rfl⟩ := hp
  simp [hall d hd]

def exFt3 : List (Date × FinRow) :=
  [(0, ⟨FVal.fin 1, FVal.fin 2, FVal.fin 3, FVal.fin 1, FVal.fin 4, FVal.fin 1⟩)]

def exBt3 : List (Date × BalRow) :=
  [(1, ⟨FVal.fin 9, FVal.fin 8, FVal.fin 7, FVal.fin 6⟩)]

def exCt3 : List (Date × CFRow) := [(0, ⟨FVal.fin 5⟩), (1, ⟨FVal.fin 6⟩)]

/-- Witness for C3 at concrete tables with no fully covered period (the
income statement only covers period 0, the balance sheet only period 1):
the consolidated table is empty and the row-count bound holds. -/
theorem c3_witness :
    consolidate exFt3 exBt3 exCt3 = [] ∧
    (consolidate exFt3 exBt3 exCt3).length ≤
      min (min exFt3.length exBt3.length) exCt3.length ∧
    ((0, combRowAt exFt3 exBt3 exCt3 0) ∈ consolidate exFt3 exBt3 exCt3 ↔
       0 ∈ allDates exFt3 exBt3 exCt3 ∧
       combRowAt exFt3 exBt3 exCt3 0 = combRowAt exFt3 exBt3 exCt3 0 ∧
       criticalOK (combRowAt exFt3 exBt3 exCt3 0) = true) := by
  obtain ⟨hmem, hlen, hemp⟩ := c3_consolidation exFt3 exBt3 exCt3
  exact ⟨hemp (by decide), hlen, hmem 0 (combRowAt exFt3 exBt3 exCt3 0)⟩

def exInfoSector : Info := ⟨none, some 2, none, some ("technology")⟩

def exComb4 : List (Date × CombRow) := [(3, exRow1)]

def keyOfResult (o : Option (CurrentOut × List (Date × HistRow) × String)) : String :=
  match o with
  | some (_, _, k) => k
  | none => ""

/-- Counterexample to C4: for an entity whose metadata has no explicit
classification key but a non-empty sector, the chain (explicit key →
sector → default) resolves to the sector, yet the engine that groups the
ratio outputs uses the literal default — `calculate_ratios` reads
`info_data.get('industryKey', 'default_industry')` and never consults the
sector field. -/
theorem c4_counterexample :
    keyOfResult (calculate_ratios exComb4 exInfoSector) = "default_industry" ∧
    get_industry_key (InfoPayload.found exInfoSector) = "technology" ∧
    ("default_industry" : String) ≠ ("technology") := by
  have hcalc : calculate_ratios exComb4 exInfoSector =
      some (CurrentOut.errorState, addHistorical exComb4, keyOfInfo exInfoSector) :=
    calc_market_missing (by decide) (Or.inl rfl)
  refine ⟨?_, by decide, by decide⟩
  rw [hcalc]
  rfl

/-- C4 (amended): the key used to group the analysis outputs is the
explicit classification key field of the metadata when present, otherwise
the literal default; the sector step of the fallback chain exists only in
the price-download component's resolver (`get_industry_key` in
`prices.py`). An entity with no classification key anywhere still ends up
under the default in both resolvers. -/
theorem c4_key_resolution (combined : List (Date × CombRow)) (i : Info)
    (hne : combined ≠ []) :
    (∃ co, calculate_ratios combined i =
      some (co, addHistorical combined,
        match i.industryKey with
        | some s => s
        | none => "default_industry")) ∧
    (i.industryKey = none → keyOfInfo i = "default_industry") ∧
    (i.industryKey = none ∧ i.sector = none →
      get_industry_key (InfoPayload.found i) = "default_industry") := by
  refine ⟨?_, ?_, ?_⟩
  · obtain ⟨co, hc⟩ := calc_some_of_ne_nil hne i
    refine ⟨co, ?_⟩
    rw [hc]
    cases hik : i.industryKey <;> simp [keyOfInfo, hik]
  · intro h1
    simp [keyOfInfo, h1]
  · rintro ⟨h1, h2⟩
    simp [get_industry_key, h1, h2]

def exInfoNoKeys : Info := ⟨some 7, some 2, none, none⟩

/-- Witness for C4 (amended) at metadata with no classification key and no
sector: both resolvers yield the literal default. -/
theorem c4_witness :
    (∃ co, calculate_ratios exComb4 exInfoNoKeys =
      some (co, addHistorical exComb4, "default_industry")) ∧
    keyOfInfo exInfoNoKeys = "default_industry" ∧
    get_industry_key (InfoPayload.found exInfoNoKeys) = "default_industry" := by
  obtain ⟨h1, h2, h3⟩ := c4_key_resolution exComb4 exInfoNoKeys (by decide)
  exact ⟨h1, h2 rfl, h3 ⟨rfl, rfl⟩⟩

def exRowEps : CombRow :=
  ⟨FVal.fin 1, FVal.fin 2, FVal.fin 3, FVal.fin 0, FVal.fin 4, FVal.nan,
   FVal.fin 5, FVal.fin 6, FVal.fin 7, FVal.fin 1, FVal.fin 8⟩

def exCombEps : List (Date × CombRow) := [(9, exRowEps)]

def exInfoEps : Info := ⟨some 10, some 4, some ("semis"), none⟩

def perOfResult (o : Option (CurrentOut × List (Date × HistRow) × String)) : FVal :=
  match o with
  | some (CurrentOut.record r, _, _) => r.per
  | _ => FVal.fin 0

/-- Counterexample to C2: an entity with market data present whose last
period has a missing (NaN) diluted EPS — a non-critical field, so the
period is retained — produces a price/EPS value that is not the sentinel,
yet renders as the literal `nan`, not as a two-decimal string (it contains
no decimal point) and not as `N/A`. -/
theorem c2_counterexample :
    perOfResult (calculate_ratios exCombEps exInfoEps) = FVal.nan ∧
    perOfResult (calculate_ratios exCombEps exInfoEps) ≠ FVal.inf ∧
    fmtValue (perOfResult (calculate_ratios exCombEps exInfoEps)) = "nan" ∧
    hasDot ("nan") = false ∧ ("nan" : String) ≠ ("N/A") := by decide

/-- C2 (amended): each of the four current-period ratios whose divisor is
exactly zero evaluates to the positive-infinity sentinel (not an error)
and renders as the literal `N/A`; every finite value renders in
two-decimal fixed point (its rendering contains a decimal point), while a
NaN value renders as the literal `nan`. -/
theorem c2_zero_divisor_sentinel {combined : List (Date × CombRow)} {i : Info}
    {rec : CurrentRecord} {h : List (Date × HistRow)} {k : String}
    {d : Date} {lr : HistRow}
    (hcalc : calculate_ratios combined i = some (CurrentOut.record rec, h, k))
    (hlast : (addHistorical combined).getLast? = some (d, lr)) :
    (lr.base.dilutedEPS = FVal.fin 0 → rec.per = FVal.inf ∧ fmtValue rec.per = "N/A") ∧
    (lr.base.ebit = FVal.fin 0 → rec.evEbit = FVal.inf ∧ fmtValue rec.evEbit = "N/A") ∧
    (lr.base.ebitda = FVal.fin 0 →
      rec.evEbitda = FVal.inf ∧ fmtValue rec.evEbitda = "N/A") ∧
    (lr.base.freeCashFlow = FVal.fin 0 →
      rec.evFcf = FVal.inf ∧ fmtValue rec.evFcf = "N/A") ∧
    (∀ q : ℚ, fmtValue (FVal.fin q) = ratToFixed2 q ∧ hasDot (ratToFixed2 q) = true) ∧
    fmtValue FVal.nan = "nan" := by
  obtain ⟨mc, price, d2, lr2, hmc, hcp, hl2, hrec⟩ := calc_record_spec hcalc
  have hpair : (d, lr) = (d2, lr2) := Option.some.inj (hlast.symm.trans hl2)
  injection hpair with hd hlr
  subst hd
  subst hlr
  subst hrec
  refine ⟨?_, ?_, ?_, ?_, fun q => ⟨fmtValue_fin q, hasDot_ratToFixed2 q⟩, rfl⟩
  · intro hz
    constructor <;> simp [hz, FVal.pyNe]
  · intro hz
    constructor <;> simp [hz, FVal.pyNe]
  · intro hz
    constructor <;> simp [hz, FVal.pyNe]
  · intro hz
    constructor <;> simp [hz, FVal.pyNe]

def exRowZero : CombRow :=
  ⟨FVal.fin 1, FVal.fin 0, FVal.fin 0, FVal.fin 0, FVal.fin 4, FVal.fin 0,
   FVal.fin 5, FVal.fin 6, FVal.fin 7, FVal.fin 1, FVal.fin 0⟩

def exCombZero : List (Date × CombRow) := [(2, exRowZero)]

def exInfoZero : Info := ⟨some 10, some 4, some ("semis"), none⟩

def exLrZero : HistRow := ⟨exRowZero, roeOf exRowZero, roicOf exRowZero⟩

def exEvZero : FVal :=
  FVal.fsub (FVal.fadd (FVal.fin 10) exRowZero.totalDebt) exRowZero.cash

def exRecZero : CurrentRecord :=
  ⟨2, 10, exEvZero, "semis", roeOf exRowZero, roicOf exRowZero,
   if FVal.pyNe exRowZero.dilutedEPS (FVal.fin 0) then
     FVal.fdiv (FVal.fin 4) exRowZero.dilutedEPS
   else FVal.inf,
   if FVal.pyNe exRowZero.ebit (FVal.fin 0) then
     FVal.fdiv exEvZero exRowZero.ebit
   else FVal.inf,
   if FVal.pyNe exRowZero.ebitda (FVal.fin 0) then
     FVal.fdiv exEvZero exRowZero.ebitda
   else FVal.inf,
   if FVal.pyNe exRowZero.freeCashFlow (FVal.fin 0) then
     FVal.fdiv exEvZero exRowZero.freeCashFlow
   else FVal.inf⟩

/-- Witness for C2 (amended) at a last period whose EBIT, EBITDA, free
cash flow and diluted EPS are all exactly zero. -/
theorem c2_witness :
    (exRecZero.per = FVal.inf ∧ fmtValue exRecZero.per = "N/A") ∧
    (exRecZero.evEbit = FVal.inf ∧ fmtValue exRecZero.evEbit = "N/A") ∧
    (exRecZero.evEbitda = FVal.inf ∧ fmtValue exRecZero.evEbitda = "N/A") ∧
    (exRecZero.evFcf = FVal.inf ∧ fmtValue exRecZero.evFcf = "N/A") ∧
    hasDot (ratToFixed2 0) = true ∧ fmtValue FVal.nan = "nan" := by
  have he : exCombZero.isEmpty = false := rfl
  have hlast : (addHistorical exCombZero).getLast? = some (2, exLrZero) := rfl
  have hcalc : calculate_ratios exCombZero exInfoZero =
      some (CurrentOut.record exRecZero, addHistorical exCombZero, "semis") := by
    simp only [calculate_ratios, he, Bool.false_eq_true, if_false, hlast]
    rfl
  obtain ⟨h1, h2, h3, h4, h5, h6⟩ := c2_zero_divisor_sentinel hcalc hlast
  exact ⟨h1 rfl, h2 rfl, h3 rfl, h4 rfl, (h5 0).2, h6⟩

/-- C9: a NaN in a retained period's non-critical field (diluted EPS,
invested capital, total debt, or cash) does not fail the computation and
does not produce the undefined sentinel: the affected ratio evaluates to
NaN — the zero-divisor guard tests `!= 0`, which NaN passes — and the
two-decimal formatter renders it as the literal `nan`, not `N/A`. -/
theorem c9_nan_propagation {combined : List (Date × CombRow)} {i : Info}
    {rec : CurrentRecord} {h : List (Date × HistRow)} {k : String}
    {d : Date} {lr : HistRow}
    (hcalc : calculate_ratios combined i = some (CurrentOut.record rec, h, k))
    (hlast : (addHistorical combined).getLast? = some (d, lr)) :
    (lr.base.dilutedEPS = FVal.nan → rec.per = FVal.nan ∧ fmtValue rec.per = "nan") ∧
    (∀ p ∈ h, p.2.base.investedCapital = FVal.nan →
      p.2.roic = FVal.nan ∧ fmtValue p.2.roic = "nan") ∧
    ((lr.base.totalDebt = FVal.nan ∨ lr.base.cash = FVal.nan) →
      rec.ev = FVal.nan ∧
      (lr.base.ebit ≠ FVal.fin 0 →
        rec.evEbit = FVal.nan ∧ fmtValue rec.evEbit = "nan") ∧
      (lr.base.ebitda ≠ FVal.fin 0 →
        rec.evEbitda = FVal.nan ∧ fmtValue rec.evEbitda = "nan") ∧
      (lr.base.freeCashFlow ≠ FVal.fin 0 →
        rec.evFcf = FVal.nan ∧ fmtValue rec.evFcf = "nan")) ∧
    ("nan" : String) ≠ ("N/A") := by
  have hparts := calc_parts hcalc
  obtain ⟨hh, -, -⟩ := hparts
  obtain ⟨mc, price, d2, lr2, hmc, hcp, hl2, hrec⟩ := calc_record_spec hcalc
  have hpair : (d, lr) = (d2, lr2) := Option.some.inj (hlast.symm.trans hl2)
  injection hpair with hd hlr
  subst hd
  subst hlr
  subst hrec
  refine ⟨?_, ?_, ?_, by decide⟩
  · intro hz
    constructor <;> simp [hz]
  · subst hh
    intro p hp hic
    obtain ⟨-, -, hroic⟩ := mem_addHistorical hp
    rw [hroic]
    constructor <;> simp [roicOf, hic]
  · intro hz
    have hev : FVal.fsub (FVal.fadd (FVal.fin mc) lr.base.totalDebt) lr.base.cash
        = FVal.nan := by
      rcases hz with hz | hz <;> simp [hz]
    refine ⟨hev, ?_, ?_, ?_⟩
    · intro hne
      have hpy := (pyNe_fin_zero_eq_true_iff lr.base.ebit).mpr hne
      constructor <;> simp [hpy, hev]
    · intro hne
      have hpy := (pyNe_fin_zero_eq_true_iff lr.base.ebitda).mpr hne
      constructor <;> simp [hpy, hev]
    · intro hne
      have hpy := (pyNe_fin_zero_eq_true_iff lr.base.freeCashFlow).mpr hne
      constructor <;> simp [hpy, hev]

def exRowNan : CombRow :=
  ⟨FVal.fin 6, FVal.fin 2, FVal.fin 3, FVal.fin 1, FVal.fin 4, FVal.nan,
   FVal.fin 5, FVal.nan, FVal.nan, FVal.fin 1, FVal.fin 8⟩

def exCombNan : List (Date × CombRow) := [(7, exRowNan)]

def exInfoNan : Info := ⟨some 10, some 4, some ("banks"), none⟩

def exLrNan : HistRow := ⟨exRowNan, roeOf exRowNan, roicOf exRowNan⟩

def exEvNan : FVal :=
  FVal.fsub (FVal.fadd (FVal.fin 10) exRowNan.totalDebt) exRowNan.cash

def exRecNan : CurrentRecord :=
  ⟨7, 10, exEvNan, "banks", roeOf exRowNan, roicOf exRowNan,
   if FVal.pyNe exRowNan.dilutedEPS (FVal.fin 0) then
     FVal.fdiv (FVal.fin 4) exRowNan.dilutedEPS
   else FVal.inf,
   if FVal.pyNe exRowNan.ebit (FVal.fin 0) then
     FVal.fdiv exEvNan exRowNan.ebit
   else FVal.inf,
   if FVal.pyNe exRowNan.ebitda (FVal.fin 0) then
     FVal.fdiv exEvNan exRowNan.ebitda
   else FVal.inf,
   if FVal.pyNe exRowNan.freeCashFlow (FVal.fin 0) then
     FVal.fdiv exEvNan exRowNan.freeCashFlow
   else FVal.inf⟩

/-- Witness for C9 at a retained period with NaN diluted EPS, NaN invested
capital, NaN total debt, and nonzero EBIT/EBITDA/FCF. -/
theorem c9_witness :
    (exRecNan.per = FVal.nan ∧ fmtValue exRecNan.per = "nan") ∧
    (exLrNan.roic = FVal.nan ∧ fmtValue exLrNan.roic = "nan") ∧
    (exRecNan.ev = FVal.nan ∧ exRecNan.evEbit = FVal.nan ∧
      fmtValue exRecNan.evEbit = "nan") ∧
    ("nan" : String) ≠ ("N/A") := by
  have he : exCombNan.isEmpty = false := rfl
  have hlast : (addHistorical exCombNan).getLast? = some (7, exLrNan) := rfl
  have hcalc : calculate_ratios exCombNan exInfoNan =
      some (CurrentOut.record exRecNan, addHistorical exCombNan, "banks") := by
    simp only [calculate_ratios, he, Bool.false_eq_true, if_false, hlast]
    rfl
  obtain ⟨h1, h2, h3, h4⟩ := c9_nan_propagation hcalc hlast
  have hmem : (7, exLrNan) ∈ addHistorical exCombNan := by
    show (7, exLrNan) ∈ [(7, exLrNan)]
    exact List.mem_singleton.mpr rfl
  obtain ⟨hev, hbit, -, -⟩ := h3 (Or.inl rfl)
  exact ⟨h1 rfl, h2 (7, exLrNan) hmem rfl, ⟨hev, hbit (by decide)⟩, h4⟩

def exRawFin : RawRow :=
  [(colNetIncome, FVal.fin 10), (colEBIT, FVal.fin 4), (colEBITDA, FVal.fin 6),
   (colTaxProvision, FVal.fin 1), (colPretaxIncome, FVal.fin 5),
   (colDilutedEPS, FVal.fin 2)]

def exRawBal : RawRow :=
  [(colStockholdersEquity, FVal.fin 50), (colInvestedCapital, FVal.fin 40),
   (colTotalDebt, FVal.fin 20), (colCash, FVal.fin 5)]

def exRawCF : RawRow := [(colFreeCashFlow, FVal.fin 7)]

def exInfoTech : Info := ⟨none, some 3, some ("tech"), none⟩

def exInpNoMc : TickerInput :=
  ⟨Payload.found [(0, exRawFin)], Payload.found [(0, exRawBal)],
   Payload.found [(0, exRawCF)], InfoPayload.found exInfoTech⟩

def exFtNoMc : List (Date × FinRow) := sortByDate [(0, mkFinRow exRawFin)]

def exBtNoMc : List (Date × BalRow) := sortByDate [(0, mkBalRow exRawBal)]

def exCtNoMc : List (Date × CFRow) := sortByDate [(0, mkCFRow exRawCF)]

def histIndustriesOf (o : Except Unit RunOutput) : List String :=
  match o with
  | Except.ok out => out.histWrites.map Prod.fst
  | Except.error _ => []

def currentCountOf (o : Except Unit RunOutput) : ℕ :=
  match o with
  | Except.ok out => (out.currentTables.map (fun p => p.2.length)).sum
  | Except.error _ => 0

def industryOfAnalyze (o : Except Unit AnalyzeResult) : Option String :=
  match o with
  | Except.ok r => r.industry
  | Except.error _ => none

def histIsSomeOfAnalyze (o : Except Unit AnalyzeResult) : Bool :=
  match o with
  | Except.ok r => r.hist.isSome
  | Except.error _ => false

/-- Counterexample to C5: for an entity whose metadata resolves to the
industry key `tech` but lacks a market cap, the analysis still resolves
the key and produces the historical table, yet the run writes no
current-ratio record for the entity in any group, and persists the
historical table under `default_industry` rather than the resolved
group — the ticker-to-industry mapping is only recorded for entities with
a successful current result. -/
theorem c5_counterexample :
    industryOfAnalyze (analyze_ticker exInpNoMc) = some ("tech") ∧
    histIsSomeOfAnalyze (analyze_ticker exInpNoMc) = true ∧
    currentCountOf (runPipeline [(("T"), exInpNoMc)]) = 0 ∧
    histIndustriesOf (runPipeline [(("T"), exInpNoMc)]) = [("default_industry")] ∧
    (("default_industry") : String) ≠ ("tech") := by decide

/-- C5 (amended): a run over an entity whose market capitalization or
current price is missing writes no current-ratio record for it (its
error-state result never reaches the written tables), and persists its
historical table under the literal `default_industry` regardless of the
resolved classification key. -/
theorem c5_error_entity_routing (t : String) {inp : TickerInput} {i : Info}
    {ft : List (Date × FinRow)} {bt : List (Date × BalRow)} {ct : List (Date × CFRow)}
    (hf : load_financials inp.financials = Except.ok ft)
    (hb : load_balance inp.balance = Except.ok bt)
    (hc : load_cashflow inp.cashflow = Except.ok ct)
    (hfe : ft ≠ []) (hbe : bt ≠ []) (hce : ct ≠ [])
    (hinfo : inp.info = InfoPayload.found i)
    (hmiss : i.marketCap = none ∨ i.currentPrice = none)
    (hcomb : consolidate ft bt ct ≠ []) :
    runPipeline [(t, inp)] = Except.ok
      ⟨[], [(("default_industry"), t, addHistorical (consolidate ft bt ct))]⟩ := by
  have ha := analyze_market_missing hf hb hc hfe hbe hce hinfo hmiss hcomb
  simp [runPipeline, runLoop, ha, updateAcc, buildOutput]

/-- Witness for C5 (amended) at the concrete `tech` entity with a missing
market cap. -/
theorem c5_witness :
    runPipeline [(("T"), exInpNoMc)] = Except.ok
      ⟨[], [(("default_industry"), ("T"),
           addHistorical (consolidate exFtNoMc exBtNoMc exCtNoMc))]⟩ := by
  have hf : load_financials exInpNoMc.financials = Except.ok exFtNoMc := rfl
  have hb : load_balance exInpNoMc.balance = Except.ok exBtNoMc := rfl
  have hc : load_cashflow exInpNoMc.cashflow = Except.ok exCtNoMc := rfl
  exact c5_error_entity_routing ("T") hf hb hc (by decide) (by decide) (by decide)
    rfl (Or.inl rfl) (by decide)

def exInfoGood : Info := ⟨some 100, some 3, some ("tech"), none⟩

def exInpGood : TickerInput :=
  ⟨Payload.found [(0, exRawFin)], Payload.found [(0, exRawBal)],
   Payload.found [(0, exRawCF)], InfoPayload.found exInfoGood⟩

def exInpMal : TickerInput :=
  ⟨Payload.malformed, Payload.found [(0, exRawBal)], Payload.found [(0, exRawCF)],
   InfoPayload.found exInfoGood⟩

def isOkRun (o : Except Unit RunOutput) : Bool :=
  match o with
  | Except.ok _ => true
  | Except.error _ => false

/-- Counterexample to C6: a run over a complete entity succeeds, but
adding an entity whose financials payload is found-but-malformed aborts
the whole run — `json.JSONDecodeError` is not caught, so the overall run
over the entity list does not continue. -/
theorem c6_counterexample :
    isOkRun (runPipeline [(("A"), exInpGood)]) = true ∧
    isOkRun (runPipeline [(("A"), exInpGood), (("B"), exInpMal)]) = false := by
  decide

/-- C6 (amended): a statement file that is not found yields an empty
result non-fatally, but a payload that is found and malformed, or one
missing a required column, raises an uncaught exception; an exception
while analyzing any entity aborts the whole run over the entity list. -/
theorem c6_error_policy :
    (load_financials Payload.notFound = Except.ok []) ∧
    (load_balance Payload.notFound = Except.ok []) ∧
    (load_cashflow Payload.notFound = Except.ok []) ∧
    (load_financials Payload.malformed = Except.error ()) ∧
    (load_balance Payload.malformed = Except.error ()) ∧
    (load_cashflow Payload.malformed = Except.error ()) ∧
    (∀ rows, FINANCIALS_COLS.all (hasCol rows) = false →
      load_financials (Payload.found rows) = Except.error ()) ∧
    (∀ inp : TickerInput, inp.financials = Payload.malformed →
      analyze_ticker inp = Except.error ()) ∧
    (∀ (t : String) (inp : TickerInput) (rest : List (String × TickerInput)),
      analyze_ticker inp = Except.error () →
      runPipeline ((t, inp) :: rest) = Except.error ()) := by
  refine ⟨rfl, rfl, rfl, rfl, rfl, rfl, ?_, ?_, ?_⟩
  · intro rows hr
    simp [load_financials, hr]
  · intro inp hmal
    exact analyze_malformed_fin hmal
  · intro t inp rest habort
    exact runPipeline_error_head habort rest

/-- Witness for C6 (amended): a payload lacking the required income
columns raises, a malformed financials payload makes the analysis raise,
and that exception aborts a concrete run. -/
theorem c6_witness :
    load_financials (Payload.found [(0, [(colEBIT, FVal.fin 1)])]) = Except.error () ∧
    analyze_ticker exInpMal = Except.error () ∧
    runPipeline [(("B"), exInpMal)] = Except.error () := by
  obtain ⟨-, -, -, -, -, -, hcols, hmal, habort⟩ := c6_error_policy
  exact ⟨hcols _ (by decide), hmal exInpMal rfl,
    habort ("B") exInpMal [] (hmal exInpMal rfl)⟩
